import Mathlib

/-!
# Assignment-2: registration, login and post CRUD with ownership checks

A shallow embedding of `src/index.js`.  The two mongoose collections are lists of records,
every route handler is a function from the store to a new store and an outcome, and the
library calls the handlers make (bcrypt, jsonwebtoken, mongoose's ObjectId cast) are the
fields of `Libs`.  Values the environment picks at run time (the bcrypt salt, the identifier
mongoose gives a new document, the token's issue time) are explicit arguments.

Request body fields are optional strings: `none` is a field missing from the JSON body.
-/

set_option autoImplicit false

namespace Assignment2

/-- A mongoose ObjectId, held in its `toString()` form. -/
abbrev ObjectId := String

/-- A document of the `User` collection (`userSchema`, lines 21-25). -/
structure User where
  _id : ObjectId
  name : String
  email : String
  password : String
deriving DecidableEq, Repr

/-- A document of the `Post` collection (`postSchema`, lines 27-32). -/
structure Post where
  _id : ObjectId
  title : String
  body : String
  image : String
  user : ObjectId
deriving DecidableEq, Repr

/-- The database: the two collections, in insertion order. -/
structure State where
  users : List User
  posts : List Post
deriving DecidableEq, Repr

/-- The store before any request. -/
def State.empty : State := ⟨[], []⟩

/-- The library calls of `index.js`, with the facts about them the handlers rely on.
* `bcryptHash password salt` is `bcrypt.hash`; its result is a 60 character string.
* `bcryptCompare password hash` is `bcrypt.compare`.
* `jwtSign id iat` is `jwt.sign(\x7b _id: id \x7d, process.env.JWT_SECRET)` issued at time `iat`.
* `jwtVerify token` is `jwt.verify(token, process.env.JWT_SECRET)` followed by reading `_id`
  from the payload; `none` is the exception `jwt.verify` throws.  It throws on the empty
  string ("jwt must be provided") and accepts what `jwtSign` made.
  A verified payload is taken to carry `_id`, as every token of `POST /login` does.
* `castObjectId str` is mongoose's cast of a string to an ObjectId; `none` is a CastError.
* `findOneUndefined users` is `User.findOne(\x7b email: undefined \x7d)`, the query of a body
  without `email`: null or a stored user, as the mongoose version decides. -/
structure Libs where
  bcryptHash : String → String → String
  bcryptCompare : String → String → Bool
  jwtSign : ObjectId → Nat → String
  jwtVerify : String → Option String
  castObjectId : String → Option ObjectId
  findOneUndefined : List User → Option User
  bcryptHash_ne : ∀ password salt, bcryptHash password salt ≠ ""
  jwtVerify_empty : jwtVerify "" = none
  jwtVerify_sign : ∀ id iat, jwtVerify (jwtSign id iat) = some id
  findOneUndefined_mem : ∀ users u, findOneUndefined users = some u → u ∈ users

/-- What makes a handler's promise reject; `index.js` has no catch around its awaits, so the
handler then writes no response. -/
inductive Thrown where
  | validationError
  | castError
  | duplicateKey
  | bcryptArgs
deriving DecidableEq, Repr

/-- A user document as `populate('user', 'name email')` returns it: field names and values. -/
abbrev Doc := List (String × String)

/-- A post of the `GET /posts` listing, its `user` path replaced by the populated owner
(`none` is `null`: no user has that identifier). -/
structure PopulatedPost where
  _id : ObjectId
  title : String
  body : String
  image : String
  user : Option Doc
deriving DecidableEq, Repr

/-- The JSON body of a response. -/
inductive Body where
  | error (msg : String)
  | message (msg : String)
  | token (t : String)
  | post (p : Post)
  | posts (ps : List PopulatedPost)
deriving DecidableEq, Repr

/-- A response: status, the `auth-token` response header when set, and the JSON body. -/
structure Response where
  status : Nat
  authToken : Option String
  body : Body
deriving DecidableEq, Repr

/-- What a handler does with a request: sends a response, or rejects without sending one. -/
abbrev Outcome := Except Thrown Response

/-- The check of `required: true` on a String path: the value must be a string of positive
length. -/
def required (v : Option String) : Bool :=
  match v with
  | some str => str != ""
  | none => false

/-- `User.findOne(\x7b email \x7d)`: the first user whose email is the given string; for a body
without `email`, what `Libs.findOneUndefined` gives. -/
def User.findOne (L : Libs) (users : List User) (email : Option String) : Option User :=
  match email with
  | some e => users.find? (fun u => u.email == e)
  | none => L.findOneUndefined users

/-- The lookup of a user by `_id` that `populate` performs. -/
def User.findById (users : List User) (id : ObjectId) : Option User :=
  users.find? (fun u => u._id == id)

/-- `new User(\x7b name, email, password \x7d).save()`: validation of the required paths, then
the insert, which the unique indexes on `_id` and on `email` can refuse. -/
def User.save (users : List User) (newId : ObjectId) (name email : Option String)
    (password : String) : Except Thrown (List User) :=
  match name, email with
  | some n, some e =>
    if required (some n) && required (some e) && required (some password) then
      if users.any (fun u => u._id == newId) || users.any (fun u => u.email == e) then
        .error .duplicateKey
      else .ok (users ++ [⟨newId, n, e, password⟩])
    else .error .validationError
  | _, _ => .error .validationError

/-- `Post.findById(id)` on an identifier already cast: the first post with that `_id`. -/
def Post.findById (posts : List Post) (id : ObjectId) : Option Post :=
  posts.find? (fun p => p._id == id)

/-- The insert behind `post.save()` of a new post: refused when the `_id` is taken. -/
def Post.insert (posts : List Post) (p : Post) : Except Thrown (List Post) :=
  if posts.any (fun q => q._id == p._id) then .error .duplicateKey else .ok (posts ++ [p])

/-- The update behind `post.save()` of a loaded post: the first document with the post's
`_id` is replaced. -/
def Post.updateOne : List Post → Post → List Post
  | [], _ => []
  | q :: qs, p => if q._id == p._id then p :: qs else q :: Post.updateOne qs p

/-- The delete behind `post.remove()`: the first document with that `_id` is removed. -/
def Post.deleteOne : List Post → ObjectId → List Post
  | [], _ => []
  | q :: qs, id => if q._id == id then qs else q :: Post.deleteOne qs id

/-- The fields of a user document. -/
def User.fields (u : User) : Doc :=
  [("name", u.name), ("email", u.email), ("password", u.password)]

/-- The projection of `populate(path, select)`: `_id` and the selected fields. -/
def User.select (fieldNames : List String) (u : User) : Doc :=
  ("_id", u._id) :: u.fields.filter (fun kv => fieldNames.contains kv.1)

/-- `Post.find().populate('user', 'name email')`. -/
def Post.findPopulated (s : State) : List PopulatedPost :=
  s.posts.map (fun p =>
    ⟨p._id, p.title, p.body, p.image,
      (User.findById s.users p.user).map (User.select ["name", "email"])⟩)

/-- The helper `res.status(code).json(body)`. -/
def reply (status : Nat) (body : Body) : Outcome := .ok ⟨status, none, body⟩

/-- `POST /register` (lines 38-56). -/
def postRegister (L : Libs) (s : State) (name email password : Option String)
    (salt : String) (newId : ObjectId) : State × Outcome :=
  match User.findOne L s.users email with
  | some _ => (s, reply 400 (.error "User already exists"))
  | none =>
    match password with
    | none => (s, .error .bcryptArgs)
    | some pw =>
      match User.save s.users newId name email (L.bcryptHash pw salt) with
      | .error e => (s, .error e)
      | .ok users => (⟨users, s.posts⟩, reply 200 (.message "User registered successfully"))

/-- `POST /login` (lines 59-77). -/
def postLogin (L : Libs) (s : State) (email password : Option String) (iat : Nat) :
    State × Outcome :=
  match User.findOne L s.users email with
  | none => (s, reply 400 (.error "Invalid credentials"))
  | some user =>
    match password with
    | none => (s, .error .bcryptArgs)
    | some pw =>
      if L.bcryptCompare pw user.password then
        let token := L.jwtSign user._id iat
        (s, .ok ⟨200, some token, .token token⟩)
      else (s, reply 400 (.error "Invalid credentials"))

/-- `authMiddleware` (lines 79-92): the response it sends itself, or the payload's `_id`
that it attaches as `req.user` before calling `next()`.  `!token` holds for a missing header
and for an empty one. -/
def authMiddleware (L : Libs) (header : Option String) : Except Response String :=
  match header with
  | none => .error ⟨401, none, .error "Access denied"⟩
  | some token =>
    if token = "" then .error ⟨401, none, .error "Access denied"⟩
    else
      match L.jwtVerify token with
      | some id => .ok id
      | none => .error ⟨400, none, .error "Invalid token"⟩

/-- A route registered as `app.METHOD(path, authMiddleware, handler)`. -/
def guarded (L : Libs) (s : State) (header : Option String)
    (handler : String → State × Outcome) : State × Outcome :=
  match authMiddleware L header with
  | .error r => (s, .ok r)
  | .ok user => handler user

/-- `GET /posts` (lines 96-99). -/
def getPosts (s : State) : State × Outcome :=
  (s, reply 200 (.posts (Post.findPopulated s)))

/-- The handler of `POST /posts` (lines 102-110), `user` being `req.user._id`. -/
def createPostHandler (L : Libs) (s : State) (title body image : Option String)
    (newId : ObjectId) (user : String) : State × Outcome :=
  match title, body, image, L.castObjectId user with
  | some t, some b, some i, some owner =>
    if required (some t) && required (some b) && required (some i) then
      match Post.insert s.posts ⟨newId, t, b, i, owner⟩ with
      | .error e => (s, .error e)
      | .ok posts => (⟨s.users, posts⟩, reply 200 (.post ⟨newId, t, b, i, owner⟩))
    else (s, .error .validationError)
  | _, _, _, _ => (s, .error .validationError)

/-- `POST /posts`. -/
def postPosts (L : Libs) (s : State) (header : Option String) (title body image : Option String)
    (newId : ObjectId) : State × Outcome :=
  guarded L s header (createPostHandler L s title body image newId)

/-- The handler of `PUT /posts/:postId` (lines 113-133). -/
def updatePostHandler (L : Libs) (s : State) (postId : String)
    (title body image : Option String) (user : String) : State × Outcome :=
  match L.castObjectId postId with
  | none => (s, .error .castError)
  | some id =>
    match Post.findById s.posts id with
    | none => (s, reply 404 (.error "Post not found"))
    | some post =>
      if post.user != user then
        (s, reply 403 (.error "You are not authorized to edit this post"))
      else
        match title, body, image with
        | some t, some b, some i =>
          if required (some t) && required (some b) && required (some i) then
            (⟨s.users, Post.updateOne s.posts ⟨post._id, t, b, i, post.user⟩⟩,
              reply 200 (.message "Post updated successfully"))
          else (s, .error .validationError)
        | _, _, _ => (s, .error .validationError)

/-- `PUT /posts/:postId`. -/
def putPost (L : Libs) (s : State) (header : Option String) (postId : String)
    (title body image : Option String) : State × Outcome :=
  guarded L s header (updatePostHandler L s postId title body image)

/-- The handler of `DELETE /posts/:postId` (lines 136-152). -/
def deletePostHandler (L : Libs) (s : State) (postId : String) (user : String) :
    State × Outcome :=
  match L.castObjectId postId with
  | none => (s, .error .castError)
  | some id =>
    match Post.findById s.posts id with
    | none => (s, reply 404 (.error "Post not found"))
    | some post =>
      if post.user != user then
        (s, reply 403 (.error "You are not authorized to delete this post"))
      else
        (⟨s.users, Post.deleteOne s.posts post._id⟩,
          reply 200 (.message "Post deleted successfully"))

/-- `DELETE /posts/:postId`. -/
def deletePost (L : Libs) (s : State) (header : Option String) (postId : String) :
    State × Outcome :=
  guarded L s header (deletePostHandler L s postId)

/-- A request to one of the six routes, with the values the environment picks for it. -/
inductive Request where
  | register (name email password : Option String) (salt : String) (newId : ObjectId)
  | login (email password : Option String) (iat : Nat)
  | listPosts
  | createPost (header : Option String) (title body image : Option String) (newId : ObjectId)
  | updatePost (header : Option String) (postId : String) (title body image : Option String)
  | deletePost (header : Option String) (postId : String)
deriving Repr

/-- The server handling one request. -/
def step (L : Libs) (s : State) : Request → State × Outcome
  | .register name email password salt newId => postRegister L s name email password salt newId
  | .login email password iat => postLogin L s email password iat
  | .listPosts => getPosts s
  | .createPost header title body image newId => postPosts L s header title body image newId
  | .updatePost header postId title body image => putPost L s header postId title body image
  | .deletePost header postId => deletePost L s header postId

/-- The store after a sequence of requests, handled one after the other. -/
def run (L : Libs) (s : State) : List Request → State
  | [] => s
  | r :: rs => run L (step L s r).1 rs

/-- The `auth-token` header of a request to a guarded route. -/
def Request.header : Request → Option String
  | .createPost header _ _ _ _ => header
  | .updatePost header _ _ _ _ => header
  | .deletePost header _ => header
  | _ => none

/-- Whether the identifier the environment picks for a new user is an ObjectId, as the
identifier mongoose generates for a document is. -/
def Request.newUserIdOk (L : Libs) : Request → Bool
  | .register _ _ _ _ newId => L.castObjectId newId == some newId
  | _ => true

/-- The token a response hands to the client: the `token` of its JSON body. -/
def issuedToken : Outcome → Option String
  | .ok ⟨_, _, .token t⟩ => some t
  | _ => none

/-- Whether a run from store `s` presents no verifying token but those in `known` and those
the server has answered with earlier in the run: the signing secret stays with the server,
so a client holds a verifying token only after a `POST /login` gave it one. -/
def honest (L : Libs) : State → List String → List Request → Bool
  | _, _, [] => true
  | s, known, r :: rs =>
    (match r.header with
      | some tok => (L.jwtVerify tok).isNone || known.contains tok
      | none => true)
    && honest L (step L s r).1
      (match issuedToken (step L s r).2 with
        | some t => t :: known
        | none => known) rs

/-- A registration and a login of `demoUser`. -/
def demoRun : List Request :=
  [.register (some "Al") (some "a@x.com") (some "secret") "salt" "64b000000000000000000001",
    .login (some "a@x.com") (some "secret") 0]

/-- Whether a character is a hexadecimal digit. -/
def isHexDigit (c : Char) : Bool :=
  c.isDigit || (c.val ≥ 97 && c.val ≤ 102) || (c.val ≥ 65 && c.val ≤ 70)

/-- A small instance of `Libs` to run the handlers on: the hash is the password behind a
marker, a token is the identifier behind a marker, and an ObjectId is 24 hexadecimal digits. -/
def demoLibs : Libs where
  bcryptHash := fun password _ => String.mk ('$' :: password.data)
  bcryptCompare := fun password hash => hash.data == '$' :: password.data
  jwtSign := fun id _ => String.mk ('J' :: id.data)
  jwtVerify := fun token =>
    match token.data with
    | 'J' :: cs => some (String.mk cs)
    | _ => none
  castObjectId := fun str =>
    if str.data.length == 24 && str.data.all isHexDigit then
      some (String.mk (str.data.map Char.toLower))
    else none
  findOneUndefined := fun _ => none
  bcryptHash_ne := by
    intro password salt h
    have h2 := congrArg String.data h
    simp at h2
  jwtVerify_empty := rfl
  jwtVerify_sign := by intro id iat; rfl
  findOneUndefined_mem := by intro users u h; exact Option.noConfusion h

/-- A user record, with the hash `demoLibs` gives the password `secret`, to run the handlers on. -/
def demoUser : User := ⟨"64b000000000000000000001", "Al", "a@x.com", "$secret"⟩

/-- A post of `demoUser`, to run the handlers on. -/
def demoPost : Post :=
  ⟨"64b0000000000000000000a1", "Hi", "B", "i.png", "64b000000000000000000001"⟩

/-- How a request can change the posts: not at all, by appending a post of a new identifier,
by replacing a stored post with one of the same identifier and owner, or by removing the
first post of an identifier. -/
inductive PostsChange (posts : List Post) : List Post → Prop where
  | same : PostsChange posts posts
  | insert (p : Post) (h : ∀ q ∈ posts, q._id ≠ p._id) : PostsChange posts (posts ++ [p])
  | update (old : Post) (t b i : String) (h : Post.findById posts old._id = some old) :
      PostsChange posts (Post.updateOne posts ⟨old._id, t, b, i, old.user⟩)
  | delete (id : ObjectId) : PostsChange posts (Post.deleteOne posts id)

/-! ## The guard -/

theorem authMiddleware_valid (L : Libs) (tok id : String) (h : L.jwtVerify tok = some id) :
    authMiddleware L (some tok) = .ok id := by
  have hne : tok ≠ "" := by
    intro he
    rw [he, L.jwtVerify_empty] at h
    exact Option.noConfusion h
  simp [authMiddleware, hne, h]

theorem guarded_valid (L : Libs) (s : State) (tok id : String)
    (handler : String → State × Outcome) (h : L.jwtVerify tok = some id) :
    guarded L s (some tok) handler = handler id := by
  simp [guarded, authMiddleware_valid L tok id h]

theorem guarded_absent (L : Libs) (s : State) (header : Option String)
    (handler : String → State × Outcome) (h : header = none ∨ header = some "") :
    guarded L s header handler = (s, .ok ⟨401, none, .error "Access denied"⟩) := by
  rcases h with h | h <;> subst h <;> simp [guarded, authMiddleware]

theorem guarded_invalid (L : Libs) (s : State) (tok : String)
    (handler : String → State × Outcome) (hne : tok ≠ "") (h : L.jwtVerify tok = none) :
    guarded L s (some tok) handler = (s, .ok ⟨400, none, .error "Invalid token"⟩) := by
  simp [guarded, authMiddleware, hne, h]

theorem authMiddleware_ok_iff (L : Libs) (header : Option String) (id : String) :
    authMiddleware L header = .ok id ↔ ∃ tok, header = some tok ∧ L.jwtVerify tok = some id := by
  constructor
  · intro h
    cases header with
    | none => simp [authMiddleware] at h
    | some tok =>
      refine ⟨tok, rfl, ?_⟩
      by_cases he : tok = ""
      · simp [authMiddleware, he] at h
      · cases hv : L.jwtVerify tok with
        | none => simp [authMiddleware, he, hv] at h
        | some id2 =>
          simp [authMiddleware, he, hv] at h
          rw [h]
  · rintro ⟨tok, rfl, hv⟩
    exact authMiddleware_valid L tok id hv

/-! ## Ownership and existence checks -/

/-- C1: a `PUT` or `DELETE` on the id of a stored post `p`, with a valid token whose user
identifier `B` is not the string `p.user`, is answered 403 and leaves the store as it was, so
`p` is still the stored post of that id. -/
theorem foreign_update_delete_forbidden (L : Libs) (s : State) (p : Post)
    (postId tok B : String) (title body image : Option String)
    (hcast : L.castObjectId postId = some p._id)
    (hp : Post.findById s.posts p._id = some p)
    (htok : L.jwtVerify tok = some B) (hne : B ≠ p.user) :
    putPost L s (some tok) postId title body image
        = (s, .ok ⟨403, none, .error "You are not authorized to edit this post"⟩)
      ∧ deletePost L s (some tok) postId
        = (s, .ok ⟨403, none, .error "You are not authorized to delete this post"⟩)
      ∧ Post.findById (putPost L s (some tok) postId title body image).1.posts p._id = some p
      ∧ Post.findById (deletePost L s (some tok) postId).1.posts p._id = some p := by
  have hne2 : ¬ p.user = B := fun h => hne h.symm
  have h1 : putPost L s (some tok) postId title body image
      = (s, .ok ⟨403, none, .error "You are not authorized to edit this post"⟩) := by
    simp [putPost, guarded_valid L s tok B _ htok, updatePostHandler, hcast, hp, hne2, reply]
  have h2 : deletePost L s (some tok) postId
      = (s, .ok ⟨403, none, .error "You are not authorized to delete this post"⟩) := by
    simp [deletePost, guarded_valid L s tok B _ htok, deletePostHandler, hcast, hp, hne2, reply]
  refine ⟨h1, h2, ?_, ?_⟩
  · rw [h1]; exact hp
  · rw [h2]; exact hp

theorem foreign_update_delete_forbidden_witness :
    putPost demoLibs ⟨[], [demoPost]⟩ (some "J64b000000000000000000002")
        "64B0000000000000000000A1" (some "x") (some "y") (some "z")
        = (⟨[], [demoPost]⟩, .ok ⟨403, none, .error "You are not authorized to edit this post"⟩)
      ∧ deletePost demoLibs ⟨[], [demoPost]⟩ (some "J64b000000000000000000002")
        "64B0000000000000000000A1"
        = (⟨[], [demoPost]⟩,
            .ok ⟨403, none, .error "You are not authorized to delete this post"⟩)
      ∧ Post.findById (putPost demoLibs ⟨[], [demoPost]⟩ (some "J64b000000000000000000002")
          "64B0000000000000000000A1" (some "x") (some "y") (some "z")).1.posts demoPost._id
        = some demoPost
      ∧ Post.findById (deletePost demoLibs ⟨[], [demoPost]⟩ (some "J64b000000000000000000002")
          "64B0000000000000000000A1").1.posts demoPost._id = some demoPost :=
  foreign_update_delete_forbidden demoLibs ⟨[], [demoPost]⟩ demoPost
    "64B0000000000000000000A1" "J64b000000000000000000002" "64b000000000000000000002"
    (some "x") (some "y") (some "z") rfl rfl rfl (by decide)

/-- C2, as stated, fails: on the empty store, where no id matches a post, a `PUT` without the
`auth-token` header is answered 401 and a `DELETE` with a token that does not verify is
answered 400, not 404; and with a valid token, a `PUT` on an id that is no ObjectId rejects
with the CastError of `findById` instead of being answered. -/
theorem not_found_regardless_of_auth_counterexample :
    Post.findById State.empty.posts "64b0000000000000000000a1" = none
      ∧ putPost demoLibs State.empty none "64b0000000000000000000a1"
          (some "x") (some "y") (some "z")
        = (State.empty, .ok ⟨401, none, .error "Access denied"⟩)
      ∧ demoLibs.jwtVerify "garbage" = none
      ∧ deletePost demoLibs State.empty (some "garbage") "64b0000000000000000000a1"
        = (State.empty, .ok ⟨400, none, .error "Invalid token"⟩)
      ∧ (401 : Nat) ≠ 404 ∧ (400 : Nat) ≠ 404
      ∧ demoLibs.castObjectId "abc" = none
      ∧ putPost demoLibs State.empty (some "J64b000000000000000000002") "abc"
          (some "x") (some "y") (some "z")
        = (State.empty, .error .castError) :=
  ⟨rfl, rfl, rfl, rfl, by decide, by decide, rfl, rfl⟩

/-- C2, amended: the guard answers first (401 without a token, 400 for one that does not
verify); with a valid token of any user, a `PUT` or `DELETE` on a well-formed post id that
matches no stored post is answered 404 and leaves the store as it was. -/
theorem not_found_after_auth (L : Libs) (s : State) (postId : String) (id : ObjectId)
    (tok user : String) (title body image : Option String)
    (hcast : L.castObjectId postId = some id)
    (hmiss : Post.findById s.posts id = none)
    (htok : L.jwtVerify tok = some user) :
    putPost L s (some tok) postId title body image
        = (s, .ok ⟨404, none, .error "Post not found"⟩)
      ∧ deletePost L s (some tok) postId = (s, .ok ⟨404, none, .error "Post not found"⟩)
      ∧ putPost L s none postId title body image = (s, .ok ⟨401, none, .error "Access denied"⟩)
      ∧ deletePost L s none postId = (s, .ok ⟨401, none, .error "Access denied"⟩)
      ∧ (∀ bad, bad ≠ "" → L.jwtVerify bad = none →
          putPost L s (some bad) postId title body image
            = (s, .ok ⟨400, none, .error "Invalid token"⟩)
          ∧ deletePost L s (some bad) postId
            = (s, .ok ⟨400, none, .error "Invalid token"⟩)) := by
  refine ⟨?_, ?_, ?_, ?_, ?_⟩
  · simp [putPost, guarded_valid L s tok user _ htok, updatePostHandler, hcast, hmiss, reply]
  · simp [deletePost, guarded_valid L s tok user _ htok, deletePostHandler, hcast, hmiss, reply]
  · exact guarded_absent L s none _ (Or.inl rfl)
  · exact guarded_absent L s none _ (Or.inl rfl)
  · intro bad hne hv
    exact ⟨guarded_invalid L s bad _ hne hv, guarded_invalid L s bad _ hne hv⟩

theorem not_found_after_auth_witness :
    putPost demoLibs ⟨[], [demoPost]⟩ (some "J64b000000000000000000002")
        "64b0000000000000000000a2" (some "x") (some "y") (some "z")
      = (⟨[], [demoPost]⟩, .ok ⟨404, none, .error "Post not found"⟩) :=
  (not_found_after_auth demoLibs ⟨[], [demoPost]⟩ "64b0000000000000000000a2"
    "64b0000000000000000000a2" "J64b000000000000000000002" "64b000000000000000000002"
    (some "x") (some "y") (some "z") rfl rfl rfl).1

/-! ## Registration and login -/

theorem findOne_none_of_forall (L : Libs) (users : List User) (e : String)
    (h : ∀ u ∈ users, u.email ≠ e) : User.findOne L users (some e) = none := by
  simp only [User.findOne, List.find?_eq_none]
  intro u hu
  simpa using h u hu

theorem findOne_append_new (L : Libs) (users : List User) (u : User) :
    ∃ v, User.findOne L (users ++ [u]) (some u.email) = some v := by
  cases h : User.findOne L (users ++ [u]) (some u.email) with
  | some v => exact ⟨v, rfl⟩
  | none =>
    simp only [User.findOne, List.find?_eq_none] at h
    have := h u (by simp)
    simp at this

theorem findOne_mem (L : Libs) (users : List User) (email : Option String) (u : User)
    (h : User.findOne L users email = some u) : u ∈ users := by
  cases email with
  | none => exact L.findOneUndefined_mem users u h
  | some e => exact List.mem_of_find?_eq_some h

theorem save_ok (users : List User) (newId : ObjectId) (n e password : String)
    (hn : n ≠ "") (he : e ≠ "") (hp : password ≠ "")
    (hid : ∀ u ∈ users, u._id ≠ newId) (hemail : ∀ u ∈ users, u.email ≠ e) :
    User.save users newId (some n) (some e) password = .ok (users ++ [⟨newId, n, e, password⟩]) := by
  have h1 : users.any (fun u => u._id == newId) = false := by
    simp only [List.any_eq_false]
    intro u hu
    simpa using hid u hu
  have h2 : users.any (fun u => u.email == e) = false := by
    simp only [List.any_eq_false]
    intro u hu
    simpa using hemail u hu
  simp [User.save, required, hn, he, hp, h1, h2]

/-- C3, as stated, fails: on the empty store, where no user has email `a@x.com`, a first
registration of that email with the empty name is refused by the `required` validation of
`name`: `user.save()` rejects, nothing is answered and no user is added. -/
theorem register_twice_counterexample :
    (∀ u ∈ State.empty.users, u.email ≠ "a@x.com")
      ∧ postRegister demoLibs State.empty (some "") (some "a@x.com") (some "secret") "salt"
          "64b000000000000000000001"
        = (State.empty, .error .validationError)
      ∧ ¬ ∃ r, (postRegister demoLibs State.empty (some "") (some "a@x.com") (some "secret")
          "salt" "64b000000000000000000001").2 = .ok r ∧ r.status = 200 :=
  ⟨by simp [State.empty], rfl, by
    rintro ⟨r, h, _⟩
    exact Except.noConfusion h⟩

/-- C3, amended: when no stored user has email `e`, a registration of `e` with a non-empty
name and email, any password and an unused new identifier is answered 200 and appends exactly
one user, of that email; after it, every registration of `e`, whatever its name and password,
is answered 400 "User already exists" and leaves the store as the first call left it. -/
theorem register_twice (L : Libs) (s : State) (name e password salt : String)
    (newId : ObjectId)
    (hfree : ∀ u ∈ s.users, u.email ≠ e) (hn : name ≠ "") (he : e ≠ "")
    (hid : ∀ u ∈ s.users, u._id ≠ newId) :
    postRegister L s (some name) (some e) (some password) salt newId
        = (⟨s.users ++ [⟨newId, name, e, L.bcryptHash password salt⟩], s.posts⟩,
            .ok ⟨200, none, .message "User registered successfully"⟩)
      ∧ ∀ (name2 password2 : Option String) (salt2 : String) (newId2 : ObjectId),
          postRegister L ⟨s.users ++ [⟨newId, name, e, L.bcryptHash password salt⟩], s.posts⟩
              name2 (some e) password2 salt2 newId2
            = (⟨s.users ++ [⟨newId, name, e, L.bcryptHash password salt⟩], s.posts⟩,
                .ok ⟨400, none, .error "User already exists"⟩) := by
  constructor
  · simp [postRegister, findOne_none_of_forall L s.users e hfree,
      save_ok s.users newId name e _ hn he (L.bcryptHash_ne password salt) hid hfree, reply]
  · intro name2 password2 salt2 newId2
    obtain ⟨v, hv⟩ := findOne_append_new L s.users ⟨newId, name, e, L.bcryptHash password salt⟩
    simp only [postRegister]
    simp only [] at hv
    rw [hv]
    rfl

theorem register_twice_witness :
    postRegister demoLibs State.empty (some "Al") (some "a@x.com") (some "secret") "salt"
        "64b000000000000000000001"
      = (⟨[⟨"64b000000000000000000001", "Al", "a@x.com", "$secret"⟩], []⟩,
          .ok ⟨200, none, .message "User registered successfully"⟩) :=
  (register_twice demoLibs State.empty "Al" "a@x.com" "secret" "salt"
    "64b000000000000000000001" (by simp [State.empty]) (by decide) (by decide)
    (by simp [State.empty])).1

/-- C4: a login with an email `e1` that no stored user has, and a login with the email `e2`
of the stored user `u` and a password that `bcrypt.compare` rejects against `u`'s stored hash,
get the same response, 400 "Invalid credentials", with no `auth-token` header and no token
in the body; both leave the store as it was. -/
theorem login_failures_indistinguishable (L : Libs) (s : State) (u : User)
    (e1 : String) (password1 : Option String) (e2 password2 : String) (iat1 iat2 : Nat)
    (hunknown : ∀ v ∈ s.users, v.email ≠ e1)
    (hknown : User.findOne L s.users (some e2) = some u)
    (hwrong : L.bcryptCompare password2 u.password = false) :
    postLogin L s (some e1) password1 iat1
        = (s, .ok ⟨400, none, .error "Invalid credentials"⟩)
      ∧ postLogin L s (some e2) (some password2) iat2
        = (s, .ok ⟨400, none, .error "Invalid credentials"⟩)
      ∧ (postLogin L s (some e1) password1 iat1).2
        = (postLogin L s (some e2) (some password2) iat2).2 := by
  have h1 : postLogin L s (some e1) password1 iat1
      = (s, .ok ⟨400, none, .error "Invalid credentials"⟩) := by
    simp [postLogin, findOne_none_of_forall L s.users e1 hunknown, reply]
  have h2 : postLogin L s (some e2) (some password2) iat2
      = (s, .ok ⟨400, none, .error "Invalid credentials"⟩) := by
    simp [postLogin, hknown, hwrong, reply]
  exact ⟨h1, h2, by rw [h1, h2]⟩

theorem login_failures_indistinguishable_witness :
    postLogin demoLibs ⟨[demoUser], []⟩ (some "b@x.com") (some "secret") 0
        = (⟨[demoUser], []⟩, .ok ⟨400, none, .error "Invalid credentials"⟩)
      ∧ postLogin demoLibs ⟨[demoUser], []⟩ (some "a@x.com") (some "wrong") 7
        = (⟨[demoUser], []⟩, .ok ⟨400, none, .error "Invalid credentials"⟩)
      ∧ (postLogin demoLibs ⟨[demoUser], []⟩ (some "b@x.com") (some "secret") 0).2
        = (postLogin demoLibs ⟨[demoUser], []⟩ (some "a@x.com") (some "wrong") 7).2 :=
  login_failures_indistinguishable demoLibs ⟨[demoUser], []⟩ demoUser "b@x.com"
    (some "secret") "a@x.com" "wrong" 0 7 (by simp [demoUser]) rfl rfl

/-! ## The guard on the protected routes -/

/-- C5, as stated, fails: an `auth-token` header that is present and empty does not verify,
yet `POST /posts` answers it 401 "Access denied", as it answers a missing header, not 400. -/
theorem guard_failures_counterexample :
    demoLibs.jwtVerify "" = none
      ∧ postPosts demoLibs State.empty (some "") (some "Hi") (some "B") (some "i.png")
          "64b0000000000000000000a1"
        = (State.empty, .ok ⟨401, none, .error "Access denied"⟩)
      ∧ (401 : Nat) ≠ 400 :=
  ⟨rfl, rfl, by decide⟩

/-- C5, amended: on create, update and delete, a missing or empty `auth-token` header is
answered 401 "Access denied" and a non-empty one that does not verify 400 "Invalid token",
the store staying as it was; the route is the handler run on the decoded user identifier
when the token verifies, and the guard passes an identifier on in that case only. -/
theorem guard_failures (L : Libs) (s : State) (header : Option String) (postId : String)
    (title body image : Option String) (newId : ObjectId) :
    ((header = none ∨ header = some "") →
        postPosts L s header title body image newId
          = (s, .ok ⟨401, none, .error "Access denied"⟩)
        ∧ putPost L s header postId title body image
          = (s, .ok ⟨401, none, .error "Access denied"⟩)
        ∧ deletePost L s header postId = (s, .ok ⟨401, none, .error "Access denied"⟩))
      ∧ (∀ tok, header = some tok → tok ≠ "" → L.jwtVerify tok = none →
        postPosts L s header title body image newId
          = (s, .ok ⟨400, none, .error "Invalid token"⟩)
        ∧ putPost L s header postId title body image
          = (s, .ok ⟨400, none, .error "Invalid token"⟩)
        ∧ deletePost L s header postId = (s, .ok ⟨400, none, .error "Invalid token"⟩))
      ∧ (∀ tok id, header = some tok → L.jwtVerify tok = some id →
        postPosts L s header title body image newId
          = createPostHandler L s title body image newId id
        ∧ putPost L s header postId title body image
          = updatePostHandler L s postId title body image id
        ∧ deletePost L s header postId = deletePostHandler L s postId id)
      ∧ (∀ id, authMiddleware L header = .ok id
          ↔ ∃ tok, header = some tok ∧ L.jwtVerify tok = some id) := by
  refine ⟨?_, ?_, ?_, ?_⟩
  · intro h
    exact ⟨guarded_absent L s header _ h, guarded_absent L s header _ h,
      guarded_absent L s header _ h⟩
  · rintro tok rfl hne hv
    exact ⟨guarded_invalid L s tok _ hne hv, guarded_invalid L s tok _ hne hv,
      guarded_invalid L s tok _ hne hv⟩
  · rintro tok id rfl hv
    exact ⟨guarded_valid L s tok id _ hv, guarded_valid L s tok id _ hv,
      guarded_valid L s tok id _ hv⟩
  · intro id
    exact authMiddleware_ok_iff L header id

theorem guard_failures_witness :
    deletePost demoLibs ⟨[demoUser], [demoPost]⟩ (some "garbage") "64b0000000000000000000a1"
      = (⟨[demoUser], [demoPost]⟩, .ok ⟨400, none, .error "Invalid token"⟩) :=
  ((guard_failures demoLibs ⟨[demoUser], [demoPost]⟩ (some "garbage")
    "64b0000000000000000000a1" none none none "64b0000000000000000000a2").2.1
      "garbage" rfl (by decide) rfl).2.2

/-! ## Creating and listing posts -/

theorem insert_ok (posts : List Post) (p : Post) (h : ∀ q ∈ posts, q._id ≠ p._id) :
    Post.insert posts p = .ok (posts ++ [p]) := by
  have h1 : posts.any (fun q => q._id == p._id) = false := by
    simp only [List.any_eq_false]
    intro q hq
    simpa using h q hq
  simp [Post.insert, h1]

theorem createPostHandler_ok (L : Libs) (s : State) (t b i : String) (newId owner : ObjectId)
    (user : String) (ht : t ≠ "") (hb : b ≠ "") (hi : i ≠ "")
    (hcast : L.castObjectId user = some owner) (hid : ∀ q ∈ s.posts, q._id ≠ newId) :
    createPostHandler L s (some t) (some b) (some i) newId user
      = (⟨s.users, s.posts ++ [⟨newId, t, b, i, owner⟩]⟩,
          .ok ⟨200, none, .post ⟨newId, t, b, i, owner⟩⟩) := by
  simp [createPostHandler, hcast, required, ht, hb, hi,
    insert_ok s.posts ⟨newId, t, b, i, owner⟩ hid, reply]

/-- C6, as stated, fails: with a valid token of the registered user `demoUser`, a
`POST /posts` with the empty title is refused by the `required` validation of `title`:
`post.save()` rejects, nothing is answered and no post is stored. -/
theorem create_then_list_counterexample :
    demoUser ∈ (⟨[demoUser], []⟩ : State).users
      ∧ demoLibs.jwtVerify "J64b000000000000000000001" = some demoUser._id
      ∧ postPosts demoLibs ⟨[demoUser], []⟩ (some "J64b000000000000000000001")
          (some "") (some "B") (some "i.png") "64b0000000000000000000a1"
        = (⟨[demoUser], []⟩, .error .validationError)
      ∧ ¬ ∃ r, (postPosts demoLibs ⟨[demoUser], []⟩ (some "J64b000000000000000000001")
          (some "") (some "B") (some "i.png") "64b0000000000000000000a1").2 = .ok r
            ∧ r.status = 200 :=
  ⟨by simp, rfl, rfl, by
    rintro ⟨r, h, _⟩
    exact Except.noConfusion h⟩

/-- C6, amended: for a stored user `A` whose identifier is an ObjectId, a valid token for
`A`, non-empty title, body and image and an unused new identifier, `POST /posts` is answered
200 with a post owned by `A._id`; the `GET /posts` that follows is answered 200 with a list
that contains that post, its owner given as `A`'s `_id`, name and email, with no `password`
field. -/
theorem create_then_list (L : Libs) (s : State) (A : User) (tok t b i : String)
    (newId : ObjectId)
    (hA : User.findById s.users A._id = some A)
    (hcast : L.castObjectId A._id = some A._id)
    (htok : L.jwtVerify tok = some A._id)
    (ht : t ≠ "") (hb : b ≠ "") (hi : i ≠ "")
    (hid : ∀ q ∈ s.posts, q._id ≠ newId) :
    postPosts L s (some tok) (some t) (some b) (some i) newId
        = (⟨s.users, s.posts ++ [⟨newId, t, b, i, A._id⟩]⟩,
            .ok ⟨200, none, .post ⟨newId, t, b, i, A._id⟩⟩)
      ∧ ∃ ps, getPosts (postPosts L s (some tok) (some t) (some b) (some i) newId).1
          = ((postPosts L s (some tok) (some t) (some b) (some i) newId).1,
              .ok ⟨200, none, .posts ps⟩)
        ∧ (⟨newId, t, b, i, some [("_id", A._id), ("name", A.name), ("email", A.email)]⟩
            : PopulatedPost) ∈ ps
        ∧ ∀ q ∈ ps, ∀ d, q.user = some d → ∀ kv ∈ d, kv.1 ≠ "password" := by
  have h1 : postPosts L s (some tok) (some t) (some b) (some i) newId
      = (⟨s.users, s.posts ++ [⟨newId, t, b, i, A._id⟩]⟩,
          .ok ⟨200, none, .post ⟨newId, t, b, i, A._id⟩⟩) := by
    rw [postPosts, guarded_valid L s tok A._id _ htok]
    exact createPostHandler_ok L s t b i newId A._id A._id ht hb hi hcast hid
  refine ⟨h1, ?_⟩
  rw [h1]
  refine ⟨_, rfl, ?_, ?_⟩
  · simp only [Post.findPopulated, List.map_append, List.map_cons, List.map_nil,
      List.mem_append, List.mem_singleton]
    right
    rw [hA]
    simp [User.select, User.fields, List.filter]
  · intro q hq d hd kv hkv
    simp only [Post.findPopulated, List.mem_map] at hq
    obtain ⟨p, _, rfl⟩ := hq
    simp only [Option.map_eq_some'] at hd
    obtain ⟨u, _, rfl⟩ := hd
    simp [User.select, User.fields, List.filter] at hkv
    rcases hkv with h | h | h <;> subst h <;> simp

theorem create_then_list_witness :
    postPosts demoLibs ⟨[demoUser], []⟩ (some "J64b000000000000000000001")
        (some "Hi") (some "B") (some "i.png") "64b0000000000000000000a1"
      = (⟨[demoUser], [demoPost]⟩, .ok ⟨200, none, .post demoPost⟩) :=
  (create_then_list demoLibs ⟨[demoUser], []⟩ demoUser "J64b000000000000000000001"
    "Hi" "B" "i.png" "64b0000000000000000000a1" rfl rfl rfl (by decide) (by decide)
    (by decide) (by simp)).1

/-! ## How one request changes the two collections -/

theorem guarded_users (L : Libs) (s : State) (header : Option String)
    (handler : String → State × Outcome) (h : ∀ id, (handler id).1.users = s.users) :
    (guarded L s header handler).1.users = s.users := by
  unfold guarded
  split
  · rfl
  · exact h _

theorem createPostHandler_users (L : Libs) (s : State) (title body image : Option String)
    (newId : ObjectId) (user : String) :
    (createPostHandler L s title body image newId user).1.users = s.users := by
  unfold createPostHandler
  repeat' (first | rfl | split)

theorem updatePostHandler_users (L : Libs) (s : State) (postId : String)
    (title body image : Option String) (user : String) :
    (updatePostHandler L s postId title body image user).1.users = s.users := by
  unfold updatePostHandler
  repeat' (first | rfl | split)

theorem deletePostHandler_users (L : Libs) (s : State) (postId user : String) :
    (deletePostHandler L s postId user).1.users = s.users := by
  unfold deletePostHandler
  repeat' (first | rfl | split)

theorem save_cases (users : List User) (newId : ObjectId) (name email : Option String)
    (password : String) (users2 : List User)
    (h : User.save users newId name email password = .ok users2) :
    ∃ u, users2 = users ++ [u] ∧ (∀ v ∈ users, v.email ≠ u.email)
      ∧ (∀ v ∈ users, v._id ≠ u._id) := by
  unfold User.save at h
  split at h
  · rename_i n e
    split at h
    · split at h
      · exact Except.noConfusion h
      · rename_i hdup
        simp only [Bool.or_eq_true, not_or, Bool.not_eq_true, List.any_eq_false] at hdup
        injection h with h
        refine ⟨⟨newId, n, e, password⟩, h.symm, ?_, ?_⟩
        · intro v hv
          simpa using hdup.2 v hv
        · intro v hv
          simpa using hdup.1 v hv
    · exact Except.noConfusion h
  · exact Except.noConfusion h

/-- A request leaves the users as they were or appends one user, of a new email and a new
identifier. -/
theorem step_users (L : Libs) (s : State) (r : Request) :
    (step L s r).1.users = s.users
      ∨ ∃ u, (step L s r).1.users = s.users ++ [u] ∧ (∀ v ∈ s.users, v.email ≠ u.email)
          ∧ (∀ v ∈ s.users, v._id ≠ u._id) := by
  cases r with
  | register name email password salt newId =>
    simp only [step, postRegister]
    split
    · exact Or.inl rfl
    · split
      · exact Or.inl rfl
      · split
        · exact Or.inl rfl
        · rename_i users2 hsave
          exact Or.inr (save_cases _ _ _ _ _ _ hsave)
  | login email password iat =>
    left
    simp only [step, postLogin]
    repeat' (first | rfl | split)
  | listPosts => exact Or.inl rfl
  | createPost header title body image newId =>
    exact Or.inl (guarded_users L s header _ (createPostHandler_users L s title body image newId))
  | updatePost header postId title body image =>
    exact Or.inl (guarded_users L s header _ (updatePostHandler_users L s postId title body image))
  | deletePost header postId =>
    exact Or.inl (guarded_users L s header _ (deletePostHandler_users L s postId))

theorem step_users_mem (L : Libs) (s : State) (r : Request) (u : User) (h : u ∈ s.users) :
    u ∈ (step L s r).1.users := by
  rcases step_users L s r with h1 | ⟨v, h1, _⟩
  · rw [h1]; exact h
  · rw [h1]; exact List.mem_append_left _ h

theorem run_users_mem (L : Libs) (reqs : List Request) (s : State) (u : User)
    (h : u ∈ s.users) : u ∈ (run L s reqs).users := by
  induction reqs generalizing s with
  | nil => exact h
  | cons r rs ih => exact ih _ (step_users_mem L s r u h)

theorem step_emails_nodup (L : Libs) (s : State) (r : Request)
    (h : (s.users.map (fun u => u.email)).Nodup) :
    ((step L s r).1.users.map (fun u => u.email)).Nodup := by
  rcases step_users L s r with h1 | ⟨u, h1, hnew, _⟩
  · rw [h1]; exact h
  · rw [h1, List.map_append, List.nodup_append]
    refine ⟨h, by simp, ?_⟩
    intro e he1 he2
    simp only [List.mem_map] at he1
    obtain ⟨v, hv, rfl⟩ := he1
    simp only [List.map_cons, List.map_nil, List.mem_singleton] at he2
    exact hnew v hv he2

theorem run_emails_nodup (L : Libs) (reqs : List Request) (s : State)
    (h : (s.users.map (fun u => u.email)).Nodup) :
    ((run L s reqs).users.map (fun u => u.email)).Nodup := by
  induction reqs generalizing s with
  | nil => exact h
  | cons r rs ih => exact ih _ (step_emails_nodup L s r h)

/-- C7: in the store reached from the empty one by any sequence of register, login,
list-posts, create-post, update-post and delete-post requests, no two user records have the
same email. -/
theorem email_unique_reachable (L : Libs) (reqs : List Request) :
    ((run L State.empty reqs).users.map (fun u => u.email)).Nodup ∧
      ∀ i j : Fin (run L State.empty reqs).users.length,
        ((run L State.empty reqs).users.get i).email
          = ((run L State.empty reqs).users.get j).email → i = j := by
  have h : ((run L State.empty reqs).users.map (fun u => u.email)).Nodup :=
    run_emails_nodup L reqs State.empty (by simp [State.empty])
  refine ⟨h, ?_⟩
  intro i j hij
  have hinj := List.nodup_iff_injective_get.mp h
  have hlen : ((run L State.empty reqs).users.map (fun u => u.email)).length
      = (run L State.empty reqs).users.length := List.length_map _ _
  have := @hinj ⟨i.1, by rw [hlen]; exact i.2⟩ ⟨j.1, by rw [hlen]; exact j.2⟩
    (by simpa using hij)
  exact Fin.ext (by simpa using congrArg Fin.val this)

/-! ## Lookups after an insert, an update and a delete -/

theorem findById_id (posts : List Post) (id : ObjectId) (p : Post)
    (h : Post.findById posts id = some p) : p._id = id := by
  have := List.find?_some h
  simpa using this

theorem findById_mem (posts : List Post) (id : ObjectId) (p : Post)
    (h : Post.findById posts id = some p) : p ∈ posts :=
  List.mem_of_find?_eq_some h

theorem findById_append (posts : List Post) (q : Post) (id : ObjectId) (p : Post)
    (h : Post.findById posts id = some p) : Post.findById (posts ++ [q]) id = some p := by
  simp only [Post.findById] at h ⊢
  rw [List.find?_append, h]
  rfl

theorem findById_cons (q : Post) (qs : List Post) (id : ObjectId) :
    Post.findById (q :: qs) id = if q._id = id then some q else Post.findById qs id := by
  by_cases h : q._id = id <;> simp [Post.findById, List.find?_cons, h]

theorem findById_updateOne_ne (posts : List Post) (p : Post) (id : ObjectId)
    (h : id ≠ p._id) : Post.findById (Post.updateOne posts p) id = Post.findById posts id := by
  induction posts with
  | nil => rfl
  | cons q qs ih =>
    simp only [Post.updateOne]
    by_cases hq : q._id = p._id
    · have hqid : ¬ q._id = id := fun h2 => h (h2.symm.trans hq)
      have hpid : ¬ p._id = id := fun h2 => h h2.symm
      simp only [beq_iff_eq, hq, if_true]
      rw [findById_cons, findById_cons, if_neg hpid, if_neg hqid]
    · simp only [beq_iff_eq, hq, if_false]
      rw [findById_cons, findById_cons, ih]

theorem findById_updateOne_eq (posts : List Post) (p q : Post)
    (h : Post.findById posts p._id = some q) :
    Post.findById (Post.updateOne posts p) p._id = some p := by
  induction posts with
  | nil => simp [Post.findById] at h
  | cons r rs ih =>
    simp only [Post.updateOne]
    by_cases hr : r._id = p._id
    · simp only [beq_iff_eq, hr, if_true]
      rw [findById_cons, if_pos rfl]
    · simp only [beq_iff_eq, hr, if_false]
      rw [findById_cons, if_neg hr] at h ⊢
      exact ih h

theorem findById_deleteOne_ne (posts : List Post) (id0 id : ObjectId) (h : id ≠ id0) :
    Post.findById (Post.deleteOne posts id0) id = Post.findById posts id := by
  induction posts with
  | nil => rfl
  | cons q qs ih =>
    simp only [Post.deleteOne]
    by_cases hq : q._id = id0
    · have hqid : ¬ q._id = id := fun h2 => h (h2.symm.trans hq)
      simp only [beq_iff_eq, hq, if_true]
      rw [findById_cons, if_neg hqid]
    · simp only [beq_iff_eq, hq, if_false]
      rw [findById_cons, findById_cons, ih]

theorem findById_none_of_not_mem (posts : List Post) (id : ObjectId)
    (h : id ∉ posts.map (fun p => p._id)) : Post.findById posts id = none := by
  simp only [Post.findById, List.find?_eq_none]
  intro p hp
  simp only [beq_iff_eq]
  intro hid
  exact h (List.mem_map.mpr ⟨p, hp, hid⟩)

theorem findById_deleteOne_eq (posts : List Post) (id : ObjectId)
    (h : (posts.map (fun p => p._id)).Nodup) :
    Post.findById (Post.deleteOne posts id) id = none := by
  induction posts with
  | nil => rfl
  | cons q qs ih =>
    simp only [List.map_cons, List.nodup_cons] at h
    simp only [Post.deleteOne]
    by_cases hq : q._id = id
    · simp only [beq_iff_eq, hq, if_true]
      exact findById_none_of_not_mem qs id (hq ▸ h.1)
    · simp only [beq_iff_eq, hq, if_false]
      rw [findById_cons, if_neg hq]
      exact ih h.2

theorem updateOne_ids (posts : List Post) (p : Post) :
    (Post.updateOne posts p).map (fun q => q._id) = posts.map (fun q => q._id) := by
  induction posts with
  | nil => rfl
  | cons q qs ih =>
    simp only [Post.updateOne]
    by_cases hq : q._id = p._id
    · simp [hq]
    · simp [hq, ih]

theorem deleteOne_sublist (posts : List Post) (id : ObjectId) :
    List.Sublist (Post.deleteOne posts id) posts := by
  induction posts with
  | nil => exact List.Sublist.refl _
  | cons q qs ih =>
    simp only [Post.deleteOne]
    split
    · exact List.sublist_cons_self q qs
    · exact List.Sublist.cons₂ q ih

theorem guarded_posts (L : Libs) (s : State) (header : Option String)
    (handler : String → State × Outcome)
    (h : ∀ id, PostsChange s.posts (handler id).1.posts) :
    PostsChange s.posts (guarded L s header handler).1.posts := by
  unfold guarded
  split
  · exact PostsChange.same
  · exact h _

theorem createPostHandler_posts (L : Libs) (s : State) (title body image : Option String)
    (newId : ObjectId) (user : String) :
    PostsChange s.posts (createPostHandler L s title body image newId user).1.posts := by
  cases title <;> cases body <;> cases image <;> cases hc : L.castObjectId user <;>
    simp only [createPostHandler, hc] <;> try exact PostsChange.same
  rename_i t b i owner
  split
  · by_cases hdup : s.posts.any (fun q => q._id == newId) = true
    · simp only [Post.insert, hdup, if_true]
      exact PostsChange.same
    · have hfree : ∀ q ∈ s.posts, q._id ≠ (⟨newId, t, b, i, owner⟩ : Post)._id := by
        simp only [Bool.not_eq_true, List.any_eq_false] at hdup
        intro q hq
        simpa using hdup q hq
      rw [insert_ok s.posts ⟨newId, t, b, i, owner⟩ hfree]
      exact PostsChange.insert _ hfree
  · exact PostsChange.same

theorem updatePostHandler_posts (L : Libs) (s : State) (postId : String)
    (title body image : Option String) (user : String) :
    PostsChange s.posts (updatePostHandler L s postId title body image user).1.posts := by
  unfold updatePostHandler
  split
  · exact PostsChange.same
  · split
    · exact PostsChange.same
    · rename_i id _ post hfind
      split
      · exact PostsChange.same
      · split
        · split
          · rename_i t b i _
            have hid := findById_id _ _ _ hfind
            exact PostsChange.update post t b i (by rw [hid]; exact hfind)
          · exact PostsChange.same
        · exact PostsChange.same

theorem deletePostHandler_posts (L : Libs) (s : State) (postId user : String) :
    PostsChange s.posts (deletePostHandler L s postId user).1.posts := by
  unfold deletePostHandler
  split
  · exact PostsChange.same
  · split
    · exact PostsChange.same
    · split
      · exact PostsChange.same
      · exact PostsChange.delete _

theorem step_posts (L : Libs) (s : State) (r : Request) :
    PostsChange s.posts (step L s r).1.posts := by
  cases r with
  | register name email password salt newId =>
    simp only [step, postRegister]
    repeat' (first | exact PostsChange.same | split)
  | login email password iat =>
    simp only [step, postLogin]
    repeat' (first | exact PostsChange.same | split)
  | listPosts => exact PostsChange.same
  | createPost header title body image newId =>
    exact guarded_posts L s header _ (createPostHandler_posts L s title body image newId)
  | updatePost header postId title body image =>
    exact guarded_posts L s header _ (updatePostHandler_posts L s postId title body image)
  | deletePost header postId =>
    exact guarded_posts L s header _ (deletePostHandler_posts L s postId)

theorem PostsChange.ids_nodup (posts posts2 : List Post) (hc : PostsChange posts posts2)
    (h : (posts.map (fun p => p._id)).Nodup) : (posts2.map (fun p => p._id)).Nodup := by
  cases hc with
  | same => exact h
  | insert p hp =>
    rw [List.map_append, List.nodup_append]
    refine ⟨h, by simp, ?_⟩
    intro id h1 h2
    simp only [List.mem_map] at h1
    obtain ⟨q, hq, rfl⟩ := h1
    simp only [List.map_cons, List.map_nil, List.mem_singleton] at h2
    exact hp q hq h2
  | update old t b i hold =>
    rw [updateOne_ids]
    exact h
  | delete id =>
    exact List.Nodup.sublist (List.Sublist.map _ (deleteOne_sublist posts id)) h

/-- Post identifiers are unique in every store reached from the empty one. -/
theorem run_post_ids_nodup (L : Libs) (reqs : List Request) (s : State)
    (h : (s.posts.map (fun p => p._id)).Nodup) :
    ((run L s reqs).posts.map (fun p => p._id)).Nodup := by
  induction reqs generalizing s with
  | nil => exact h
  | cons r rs ih => exact ih _ (PostsChange.ids_nodup _ _ (step_posts L s r) h)

theorem PostsChange.owner (posts posts2 : List Post) (hc : PostsChange posts posts2)
    (hnd : (posts.map (fun p => p._id)).Nodup) (id : ObjectId) (p p2 : Post)
    (h1 : Post.findById posts id = some p) (h2 : Post.findById posts2 id = some p2) :
    p2.user = p.user := by
  cases hc with
  | same =>
    rw [h1] at h2
    injection h2 with h2
    rw [h2]
  | insert q hq =>
    rw [findById_append posts q id p h1] at h2
    injection h2 with h2
    rw [h2]
  | update old t b i hold =>
    by_cases hid : id = old._id
    · subst hid
      rw [findById_updateOne_eq posts ⟨old._id, t, b, i, old.user⟩ old hold] at h2
      rw [hold] at h1
      injection h1 with h1
      injection h2 with h2
      rw [← h1, ← h2]
    · rw [findById_updateOne_ne posts ⟨old._id, t, b, i, old.user⟩ id hid, h1] at h2
      injection h2 with h2
      rw [h2]
  | delete id0 =>
    by_cases hid : id = id0
    · subst hid
      rw [findById_deleteOne_eq posts id hnd] at h2
      exact Option.noConfusion h2
    · rw [findById_deleteOne_ne posts id0 id hid, h1] at h2
      injection h2 with h2
      rw [h2]

/-- C8: for a store whose post identifiers are unique, any request of the six operations,
and a post identifier that has a post before and after the request, the owner after the
request is the owner before it. -/
theorem owner_never_changes (L : Libs) (s : State) (r : Request) (id : ObjectId)
    (p p2 : Post) (hnd : (s.posts.map (fun q => q._id)).Nodup)
    (hbefore : Post.findById s.posts id = some p)
    (hafter : Post.findById (step L s r).1.posts id = some p2) :
    p2.user = p.user :=
  PostsChange.owner s.posts _ (step_posts L s r) hnd id p p2 hbefore hafter

theorem owner_never_changes_witness :
    (⟨"64b0000000000000000000a1", "x", "y", "z", "64b000000000000000000001"⟩ : Post).user
      = demoPost.user :=
  owner_never_changes demoLibs ⟨[demoUser], [demoPost]⟩
    (.updatePost (some "J64b000000000000000000001") "64b0000000000000000000a1"
      (some "x") (some "y") (some "z"))
    "64b0000000000000000000a1" demoPost
    ⟨"64b0000000000000000000a1", "x", "y", "z", "64b000000000000000000001"⟩
    (by simp [demoPost]) rfl rfl

/-! ## The owner of a new post, and the owner's update -/

theorem postLogin_token (L : Libs) (s : State) (email password : Option String) (iat : Nat)
    (tok : String) (h : issuedToken (postLogin L s email password iat).2 = some tok) :
    ∃ u ∈ s.users, L.jwtVerify tok = some u._id := by
  unfold postLogin at h
  cases hu : User.findOne L s.users email with
  | none => simp [hu, issuedToken, reply] at h
  | some u =>
    cases password with
    | none => simp [hu, issuedToken] at h
    | some pw =>
      by_cases hc : L.bcryptCompare pw u.password = true
      · simp [hu, hc, issuedToken] at h
        exact ⟨u, findOne_mem L s.users email u hu, by rw [← h]; exact L.jwtVerify_sign _ _⟩
      · simp [hu, hc, issuedToken, reply] at h

theorem guarded_token (L : Libs) (s : State) (header : Option String)
    (handler : String → State × Outcome) (h : ∀ id, issuedToken (handler id).2 = none) :
    issuedToken (guarded L s header handler).2 = none := by
  cases header with
  | none => simp [guarded, authMiddleware, issuedToken]
  | some tok =>
    by_cases he : tok = ""
    · simp [guarded, authMiddleware, he, issuedToken]
    · cases hv : L.jwtVerify tok with
      | none => simp [guarded, authMiddleware, he, hv, issuedToken]
      | some id => simpa [guarded, authMiddleware, he, hv] using h id

theorem createPostHandler_token (L : Libs) (s : State) (title body image : Option String)
    (newId : ObjectId) (user : String) :
    issuedToken (createPostHandler L s title body image newId user).2 = none := by
  unfold createPostHandler
  repeat' (first | rfl | split)

theorem updatePostHandler_token (L : Libs) (s : State) (postId : String)
    (title body image : Option String) (user : String) :
    issuedToken (updatePostHandler L s postId title body image user).2 = none := by
  unfold updatePostHandler
  repeat' (first | rfl | split)

theorem deletePostHandler_token (L : Libs) (s : State) (postId user : String) :
    issuedToken (deletePostHandler L s postId user).2 = none := by
  unfold deletePostHandler
  repeat' (first | rfl | split)

/-- Only `POST /login` answers with a token, and the token it answers with verifies to the
identifier of a stored user. -/
theorem step_token (L : Libs) (s : State) (r : Request) (tok : String)
    (h : issuedToken (step L s r).2 = some tok) :
    ∃ u ∈ s.users, L.jwtVerify tok = some u._id := by
  cases r with
  | register name email password salt newId =>
    have h0 : issuedToken (postRegister L s name email password salt newId).2 = none := by
      unfold postRegister
      repeat' (first | rfl | split)
    rw [step, h0] at h
    exact Option.noConfusion h
  | login email password iat => exact postLogin_token L s email password iat tok h
  | listPosts => exact Option.noConfusion h
  | createPost header title body image newId =>
    rw [step, postPosts, guarded_token L s header _
      (createPostHandler_token L s title body image newId)] at h
    exact Option.noConfusion h
  | updatePost header postId title body image =>
    rw [step, putPost, guarded_token L s header _
      (updatePostHandler_token L s postId title body image)] at h
    exact Option.noConfusion h
  | deletePost header postId =>
    rw [step, deletePost, guarded_token L s header _ (deletePostHandler_token L s postId)] at h
    exact Option.noConfusion h

theorem save_ids (users : List User) (newId : ObjectId) (name email : Option String)
    (password : String) (users2 : List User)
    (h : User.save users newId name email password = .ok users2) :
    ∀ v ∈ users2, v ∈ users ∨ v._id = newId := by
  unfold User.save at h
  split at h
  · split at h
    · split at h
      · exact Except.noConfusion h
      · injection h with h
        subst h
        intro v hv
        rcases List.mem_append.mp hv with hv | hv
        · exact Or.inl hv
        · right
          simp only [List.mem_singleton] at hv
          rw [hv]
    · exact Except.noConfusion h
  · exact Except.noConfusion h

/-- The identifiers of the stored users stay ObjectIds when the identifier of each new
user is one. -/
theorem step_user_ids (L : Libs) (s : State) (r : Request)
    (hs : ∀ u ∈ s.users, L.castObjectId u._id = some u._id)
    (hr : r.newUserIdOk L = true) :
    ∀ u ∈ (step L s r).1.users, L.castObjectId u._id = some u._id := by
  cases r with
  | register name email password salt newId =>
    simp only [Request.newUserIdOk, beq_iff_eq] at hr
    simp only [step, postRegister]
    split
    · exact hs
    · split
      · exact hs
      · split
        · exact hs
        · rename_i users2 hsave
          intro u hu
          rcases save_ids _ _ _ _ _ _ hsave u hu with h1 | h1
          · exact hs u h1
          · rw [h1]; exact hr
  | login email password iat =>
    intro u hu
    rcases step_users L s (.login email password iat) with h1 | ⟨v, h1, _⟩
    · rw [h1] at hu; exact hs u hu
    · exfalso
      have h2 : (step L s (.login email password iat)).1.users = s.users := by
        simp only [step, postLogin]
        repeat' (first | rfl | split)
      rw [h2] at h1
      have := congrArg List.length h1
      simp at this
  | listPosts => exact hs
  | createPost header title body image newId =>
    rw [step, postPosts, guarded_users L s header _
      (createPostHandler_users L s title body image newId)]
    exact hs
  | updatePost header postId title body image =>
    rw [step, putPost, guarded_users L s header _
      (updatePostHandler_users L s postId title body image)]
    exact hs
  | deletePost header postId =>
    rw [step, deletePost, guarded_users L s header _ (deletePostHandler_users L s postId)]
    exact hs

/-- Along a run in which every verifying token was issued by the server, each issued token
verifies to the identifier of a stored user, the stored identifiers are ObjectIds, and the
next request again carries no verifying token but an issued one. -/
theorem honest_run (L : Libs) (pre : List Request) (last : Request) (s : State)
    (known : List String)
    (hknown : ∀ tok ∈ known, ∃ u ∈ s.users, L.jwtVerify tok = some u._id)
    (hs : ∀ u ∈ s.users, L.castObjectId u._id = some u._id)
    (hids : ∀ r ∈ pre, r.newUserIdOk L = true)
    (hhonest : honest L s known (pre ++ [last]) = true) :
    (∀ u ∈ (run L s pre).users, L.castObjectId u._id = some u._id)
      ∧ ∀ tok id, last.header = some tok → L.jwtVerify tok = some id →
          ∃ u ∈ (run L s pre).users, id = u._id := by
  induction pre generalizing s known with
  | nil =>
    refine ⟨hs, ?_⟩
    intro tok id hh hv
    simp [honest, hh, hv] at hhonest
    obtain ⟨u, hu, hv2⟩ := hknown tok hhonest
    rw [hv] at hv2
    injection hv2 with hv2
    exact ⟨u, hu, hv2⟩
  | cons r rs ih =>
    simp only [List.cons_append, honest, Bool.and_eq_true] at hhonest
    refine ih (step L s r).1 _ ?_ ?_ ?_ hhonest.2
    · intro tok htok
      cases hi : issuedToken (step L s r).2 with
      | none =>
        rw [hi] at htok
        obtain ⟨u, hu, hv⟩ := hknown tok htok
        exact ⟨u, step_users_mem L s r u hu, hv⟩
      | some t =>
        rw [hi] at htok
        rcases List.mem_cons.mp htok with h1 | h1
        · obtain ⟨u, hu, hv⟩ := step_token L s r t hi
          exact ⟨u, step_users_mem L s r u hu, by rw [h1]; exact hv⟩
        · obtain ⟨u, hu, hv⟩ := hknown tok h1
          exact ⟨u, step_users_mem L s r u hu, hv⟩
    · exact step_user_ids L s r hs (hids r (List.mem_cons_self _ _))
    · intro r2 hr2
      exact hids r2 (List.mem_cons_of_mem _ hr2)

theorem postPosts_reply (L : Libs) (s : State) (header : Option String)
    (title body image : Option String) (newId : ObjectId) (s2 : State) (p : Post)
    (h : postPosts L s header title body image newId = (s2, .ok ⟨200, none, .post p⟩)) :
    ∃ tok id, header = some tok ∧ L.jwtVerify tok = some id
      ∧ L.castObjectId id = some p.user ∧ s2 = ⟨s.users, s.posts ++ [p]⟩ := by
  cases ha : authMiddleware L header with
  | error r =>
    unfold postPosts guarded at h
    rw [ha] at h
    unfold authMiddleware at ha
    split at ha
    · injection ha with ha
      subst ha
      simp at h
    · split at ha
      · injection ha with ha
        subst ha
        simp at h
      · split at ha
        · exact Except.noConfusion ha
        · injection ha with ha
          subst ha
          simp at h
  | ok id =>
    obtain ⟨tok, hh, hv⟩ := (authMiddleware_ok_iff L header id).mp ha
    refine ⟨tok, id, hh, hv, ?_⟩
    unfold postPosts guarded at h
    rw [ha] at h
    simp only [] at h
    cases title <;> cases body <;> cases image <;> cases hc : L.castObjectId id <;>
      simp only [createPostHandler, hc] at h <;>
      try (simp at h; done)
    rename_i t b i owner
    split at h
    · by_cases hdup : s.posts.any (fun q => q._id == newId) = true
      · simp [Post.insert, hdup] at h
      · simp only [Post.insert, hdup] at h
        simp only [reply, Bool.false_eq_true, if_false, Prod.mk.injEq, Except.ok.injEq,
          Response.mk.injEq, Body.post.injEq, true_and] at h
        obtain ⟨hs, hp⟩ := h
        subst hp
        exact ⟨rfl, hs.symm⟩
    · simp at h

/-- C9: in a run of the server from the empty store, in which the identifier of each new
user is an ObjectId and a token that verifies is only presented after a `POST /login` of the
run answered with it, whenever `POST /posts` is answered 200 with a post `p`, that post is
the one appended to the store and its owner `p.user` is the identifier of a user record
that is in the user store at that moment. -/
theorem owner_exists_at_creation (L : Libs) (pre : List Request) (header : Option String)
    (title body image : Option String) (newId : ObjectId) (s2 : State) (p : Post)
    (hids : ∀ r ∈ pre, r.newUserIdOk L = true)
    (hhonest : honest L State.empty []
      (pre ++ [.createPost header title body image newId]) = true)
    (hpost : postPosts L (run L State.empty pre) header title body image newId
      = (s2, .ok ⟨200, none, .post p⟩)) :
    (∃ u ∈ (run L State.empty pre).users, u._id = p.user)
      ∧ s2 = ⟨(run L State.empty pre).users, (run L State.empty pre).posts ++ [p]⟩
      ∧ (∃ u ∈ s2.users, u._id = p.user) := by
  obtain ⟨tok, id, hh, hv, hc, hs2⟩ := postPosts_reply L _ header title body image newId s2 p hpost
  obtain ⟨hcan, hown⟩ := honest_run L pre (.createPost header title body image newId)
    State.empty [] (by simp) (by simp [State.empty]) hids hhonest
  obtain ⟨u, hu, hid⟩ := hown tok id hh hv
  have hown2 : u._id = p.user := by
    have h1 := hcan u hu
    rw [hid] at hc
    rw [hc] at h1
    injection h1 with h1
    exact h1.symm
  refine ⟨⟨u, hu, hown2⟩, hs2, ?_⟩
  rw [hs2]
  exact ⟨u, hu, hown2⟩

theorem owner_exists_at_creation_witness :
    (∃ u ∈ (run demoLibs State.empty demoRun).users, u._id = demoPost.user)
      ∧ (⟨[demoUser], [demoPost]⟩ : State)
        = ⟨(run demoLibs State.empty demoRun).users,
            (run demoLibs State.empty demoRun).posts ++ [demoPost]⟩
      ∧ (∃ u ∈ (⟨[demoUser], [demoPost]⟩ : State).users, u._id = demoPost.user) :=
  owner_exists_at_creation demoLibs demoRun (some "J64b000000000000000000001")
    (some "Hi") (some "B") (some "i.png") "64b0000000000000000000a1"
    ⟨[demoUser], [demoPost]⟩ demoPost (by decide) rfl rfl

theorem mem_updateOne_of_ne (posts : List Post) (p q : Post) (h : q._id ≠ p._id) :
    q ∈ Post.updateOne posts p ↔ q ∈ posts := by
  induction posts with
  | nil => simp [Post.updateOne]
  | cons r rs ih =>
    simp only [Post.updateOne]
    by_cases hr : r._id = p._id
    · simp only [beq_iff_eq, hr, if_true, List.mem_cons]
      constructor
      · rintro (h1 | h1)
        · exact absurd (congrArg Post._id h1) h
        · exact Or.inr h1
      · rintro (h1 | h1)
        · exact absurd ((congrArg Post._id h1).trans hr) h
        · exact Or.inr h1
    · simp only [beq_iff_eq, hr, if_false, List.mem_cons, ih]

theorem updateOne_length (posts : List Post) (p : Post) :
    (Post.updateOne posts p).length = posts.length := by
  have := congrArg List.length (updateOne_ids posts p)
  simpa using this

/-- C10, as stated, fails: the owner's `PUT` on a stored post with the empty title, and the
one with no title in the body, are refused by the `required` validation of `title`:
`post.save()` rejects, nothing is answered and the post keeps its title. -/
theorem owner_update_counterexample :
    demoLibs.jwtVerify "J64b000000000000000000001" = some demoPost.user
      ∧ Post.findById [demoPost] "64b0000000000000000000a1" = some demoPost
      ∧ putPost demoLibs ⟨[demoUser], [demoPost]⟩ (some "J64b000000000000000000001")
          "64b0000000000000000000a1" (some "") (some "y") (some "z")
        = (⟨[demoUser], [demoPost]⟩, .error .validationError)
      ∧ putPost demoLibs ⟨[demoUser], [demoPost]⟩ (some "J64b000000000000000000001")
          "64b0000000000000000000a1" none (some "y") (some "z")
        = (⟨[demoUser], [demoPost]⟩, .error .validationError)
      ∧ ¬ ∃ r, (putPost demoLibs ⟨[demoUser], [demoPost]⟩ (some "J64b000000000000000000001")
          "64b0000000000000000000a1" (some "") (some "y") (some "z")).2 = .ok r
            ∧ r.status = 200 :=
  ⟨rfl, rfl, rfl, rfl, by
    rintro ⟨r, h, _⟩
    exact Except.noConfusion h⟩

/-- C10, amended: a `PUT` on the id of a stored post `p`, with a valid token whose user
identifier is the string `p.user` and with non-empty title, body and image, is answered 200
"Post updated successfully"; afterwards the post of that id has the request's title, body and
image and `p`'s id and owner, the posts of every other id are the same and as many, and the
users are unchanged. -/
theorem owner_update (L : Libs) (s : State) (p : Post) (postId tok t b i : String)
    (hcast : L.castObjectId postId = some p._id)
    (hp : Post.findById s.posts p._id = some p)
    (htok : L.jwtVerify tok = some p.user)
    (ht : t ≠ "") (hb : b ≠ "") (hi : i ≠ "") :
    (putPost L s (some tok) postId (some t) (some b) (some i)).2
        = .ok ⟨200, none, .message "Post updated successfully"⟩
      ∧ Post.findById (putPost L s (some tok) postId (some t) (some b) (some i)).1.posts p._id
        = some ⟨p._id, t, b, i, p.user⟩
      ∧ (∀ id, id ≠ p._id →
          Post.findById (putPost L s (some tok) postId (some t) (some b) (some i)).1.posts id
            = Post.findById s.posts id)
      ∧ (∀ q : Post, q._id ≠ p._id →
          (q ∈ (putPost L s (some tok) postId (some t) (some b) (some i)).1.posts
            ↔ q ∈ s.posts))
      ∧ (putPost L s (some tok) postId (some t) (some b) (some i)).1.posts.length
        = s.posts.length
      ∧ (putPost L s (some tok) postId (some t) (some b) (some i)).1.users = s.users := by
  have h1 : putPost L s (some tok) postId (some t) (some b) (some i)
      = (⟨s.users, Post.updateOne s.posts ⟨p._id, t, b, i, p.user⟩⟩,
          .ok ⟨200, none, .message "Post updated successfully"⟩) := by
    simp [putPost, guarded_valid L s tok p.user _ htok, updatePostHandler, hcast, hp,
      required, ht, hb, hi, reply]
  rw [h1]
  refine ⟨rfl, ?_, ?_, ?_, ?_, rfl⟩
  · exact findById_updateOne_eq s.posts ⟨p._id, t, b, i, p.user⟩ p hp
  · intro id hid
    exact findById_updateOne_ne s.posts ⟨p._id, t, b, i, p.user⟩ id hid
  · intro q hq
    exact mem_updateOne_of_ne s.posts ⟨p._id, t, b, i, p.user⟩ q hq
  · exact updateOne_length s.posts _

theorem owner_update_witness :
    (putPost demoLibs ⟨[demoUser], [demoPost]⟩ (some "J64b000000000000000000001")
        "64b0000000000000000000a1" (some "x") (some "y") (some "z")).2
      = .ok ⟨200, none, .message "Post updated successfully"⟩ :=
  (owner_update demoLibs ⟨[demoUser], [demoPost]⟩ demoPost "64b0000000000000000000a1"
    "J64b000000000000000000001" "x" "y" "z" rfl rfl rfl (by decide) (by decide)
    (by decide)).1

end Assignment2
